import Mathlib

/-!
Verification of the `vec` generic-vector library (src/vec.h) against its
natural-language specification.

The library stores a header `{capacity, length, item_size}` immediately before
the data block and hands the caller a pointer to element 0.  The shallow
embedding below keeps the three header fields as natural numbers and models the
data block as a total function from slot index to element value: the C code
performs unchecked pointer writes, and the embedding mirrors that by writing to
the function without a bound check.  Slots at or beyond `cap` correspond to
memory outside the current allocation; their model values stand for the
unspecified bytes found there.

C integer arguments to the `vec_insert` and `vec_reserve` macros are modelled
as mathematical integers (`Int`), with conversion to `size_t` as reduction
modulo 2^64 (the C conversion rule for unsigned types on an LP64 platform).
-/

namespace VecLib

/-- VEC_MAX_PREALLOC (src/vec.h line 128): default `1024*1024`. -/
def VEC_MAX_PREALLOC : ℕ := 1024 * 1024

/-- One vec handle together with its header (src/vec.h lines 266-270): the
header fields `capacity`, `length` and `item_size`, and the data block, which
the C code addresses as `vec[i]`. -/
structure Vec (α : Type) where
  cap : ℕ
  len : ℕ
  itemSize : ℕ
  data : ℕ → α

/-- C conversion of an integer value to `size_t` on an LP64 platform:
reduction modulo 2^64. -/
def toSizeT (i : Int) : ℕ := (i % (2 : Int) ^ 64).toNat

/-- Store `x` at slot `i` of data block `d` (the C write `vec[i] = item`). -/
def writeSlot (d : ℕ → α) (i : ℕ) (x : α) : ℕ → α :=
  fun j => if j = i then x else d j

/-- The grown capacity computed by `vec_push` and `vec_insert`
(src/vec.h lines 168-174 and 194-200): doubling while
`capacity ≤ VEC_MAX_PREALLOC`, `+ 1` beyond it. -/
def grownCap (cap : ℕ) : ℕ :=
  if cap ≤ VEC_MAX_PREALLOC then cap * 2 else cap + 1

/-- vec_newlen (src/vec.h lines 300-313): a fresh vec with
`capacity = nitems`, `length = 0`, `item_size = size`; `memset` zero-fills the
`nitems` data slots, and `mem` supplies the unspecified contents of memory
beyond the allocation. -/
def vec_newlen (size nitems : ℕ) (zero : α) (mem : ℕ → α) : Vec α :=
  { cap := nitems, len := 0, itemSize := size,
    data := fun i => if i < nitems then zero else mem i }

/-- vec_new (src/vec.h lines 295-297): `vec_newlen` with `nitems = 1`. -/
def vec_new (size : ℕ) (zero : α) (mem : ℕ → α) : Vec α :=
  vec_newlen size 1 zero mem

/-- vec_newsize (src/vec.h lines 316-318): alias of `vec_newlen`. -/
def vec_newsize (size nitems : ℕ) (zero : α) (mem : ℕ → α) : Vec α :=
  vec_newlen size nitems zero mem

/-- vec_dup (src/vec.h lines 321-331): byte-copies the header and all `cap`
slots into a fresh allocation; `mem` supplies the unspecified contents beyond
the new allocation. -/
def vec_dup (v : Vec α) (mem : ℕ → α) : Vec α :=
  { v with data := fun i => if i < v.cap then v.data i else mem i }

/-- vec_cap (src/vec.h lines 339-341). -/
def vec_cap (v : Vec α) : ℕ := v.cap

/-- vec_len (src/vec.h lines 344-346). -/
def vec_len (v : Vec α) : ℕ := v.len

/-- vec_size (src/vec.h lines 349-351): reads the `length` header field,
exactly as `vec_len` does. -/
def vec_size (v : Vec α) : ℕ := v.len

/-- vec_isempty (src/vec.h lines 354-356). -/
def vec_isempty (v : Vec α) : Bool := v.len = 0

/-- vec_clear (src/vec.h lines 359-361). -/
def vec_clear (v : Vec α) : Vec α := { v with len := 0 }

/-- vec_pop (src/vec.h lines 364-368). -/
def vec_pop (v : Vec α) : Vec α :=
  if 0 < v.len then { v with len := v.len - 1 } else v

/-- vec_remove (src/vec.h lines 371-381): `index` has type `size_t`.  When
`0 < length` and `index < length`, `memmove` copies the
`length - (index + 1)` slots starting at `index + 1` down to `index`, then
`length` is decremented; otherwise nothing happens. -/
def vec_remove (v : Vec α) (index : ℕ) : Vec α :=
  if 0 < v.len ∧ index < v.len then
    { v with
      len := v.len - 1,
      data := fun j =>
        if index ≤ j ∧ j < v.len - 1 then v.data (j + 1) else v.data j }
  else v

/-- vec_push (src/vec.h lines 164-187): when `length = capacity` the block is
reallocated to `grownCap capacity` (the data bytes are preserved by
`realloc`), then `length` is incremented and the item written at slot
`length - 1` (the old `length`). -/
def vec_push (v : Vec α) (item : α) : Vec α :=
  { v with
    cap := if v.len = v.cap then grownCap v.cap else v.cap,
    len := v.len + 1,
    data := writeSlot v.data v.len item }

/-- vec_insert (src/vec.h lines 189-219): the guard on line 191 is
`(size_t) index == index && index >= 0 && index <= _vec_hdr_len(vec)` for a
signed-integer `index`.  By the C usual arithmetic conversions the first
comparison converts both sides to `size_t`, so it compares `toSizeT index`
with itself; the second is a signed comparison; in the third, `index` is
converted to `size_t`.  When the guard holds the vec grows exactly as
`vec_push` does if `length = capacity`, `length` is incremented, `memmove`
shifts the `(length - 1) - index` slots starting at `index` up by one, and the
item is written at slot `index`. -/
def vec_insert (v : Vec α) (item : α) (index : Int) : Vec α :=
  if toSizeT index = toSizeT index ∧ 0 ≤ index ∧ toSizeT index ≤ v.len then
    { v with
      cap := if v.len = v.cap then grownCap v.cap else v.cap,
      len := v.len + 1,
      data := writeSlot
        (fun j =>
          if toSizeT index + 1 ≤ j ∧ j ≤ v.len then v.data (j - 1) else v.data j)
        (toSizeT index) item }
  else v

/-- vec_reserve (src/vec.h lines 228-239): the guard on line 230 is
`(size_t) size == size && size > _vec_hdr_cap(vec)`; by the C usual arithmetic
conversions both comparisons convert `size` to `size_t`, so the first compares
`toSizeT size` with itself and the second compares `toSizeT size` with the
capacity.  When the guard holds the block is reallocated and the capacity
header field is set to the converted size. -/
def vec_reserve (v : Vec α) (size : Int) : Vec α :=
  if toSizeT size = toSizeT size ∧ v.cap < toSizeT size then
    { v with cap := toSizeT size }
  else v

/-- vec_shrink (src/vec.h lines 241-255): when `capacity ≠ length` the block
is reallocated down to `length > 0 ? length : 1` slots and the capacity header
field updated; otherwise nothing happens. -/
def vec_shrink (v : Vec α) : Vec α :=
  if v.cap ≠ v.len then
    { v with cap := if 0 < v.len then v.len else 1 }
  else v

/-- The fatal outcome of an allocation failure: `raise(SIGSEGV)` terminates
the process (src/vec.h lines 177-179, 203-205, 232-234, 248-250, 302-304,
323-325). -/
inductive Fatal where
  | sigsegv

/-- vec_newlen with a fallible allocator: `VEC_MALLOC` (`ok = false` models a
NULL return) is called before any header write; on failure the process is
terminated by `raise(SIGSEGV)` with nothing returned. -/
def vec_newlenE (ok : Bool) (size nitems : ℕ) (zero : α) (mem : ℕ → α) :
    Except Fatal (Vec α) :=
  if ok = false then Except.error Fatal.sigsegv
  else Except.ok (vec_newlen size nitems zero mem)

/-- vec_dup with a fallible allocator: `VEC_MALLOC` is called before the byte
copy; on failure `raise(SIGSEGV)`. -/
def vec_dupE (ok : Bool) (v : Vec α) (mem : ℕ → α) : Except Fatal (Vec α) :=
  if ok = false then Except.error Fatal.sigsegv
  else Except.ok (vec_dup v mem)

/-- vec_push with a fallible allocator: `VEC_REALLOC` runs only in the
`length = capacity` branch, before any header write; on failure
`raise(SIGSEGV)`, otherwise the operation proceeds as `vec_push`. -/
def vec_pushE (ok : Bool) (v : Vec α) (item : α) : Except Fatal (Vec α) :=
  if v.len = v.cap ∧ ok = false then Except.error Fatal.sigsegv
  else Except.ok (vec_push v item)

/-- vec_insert with a fallible allocator: `VEC_REALLOC` runs only when the
index guard holds and `length = capacity`, before any header write; on failure
`raise(SIGSEGV)`, otherwise the operation proceeds as `vec_insert`. -/
def vec_insertE (ok : Bool) (v : Vec α) (item : α) (index : Int) :
    Except Fatal (Vec α) :=
  if (0 ≤ index ∧ toSizeT index ≤ v.len) ∧ v.len = v.cap ∧ ok = false then
    Except.error Fatal.sigsegv
  else Except.ok (vec_insert v item index)

/-- vec_reserve with a fallible allocator: `VEC_REALLOC` runs only when the
size guard holds, before any header write; on failure `raise(SIGSEGV)`,
otherwise the operation proceeds as `vec_reserve`. -/
def vec_reserveE (ok : Bool) (v : Vec α) (size : Int) : Except Fatal (Vec α) :=
  if v.cap < toSizeT size ∧ ok = false then Except.error Fatal.sigsegv
  else Except.ok (vec_reserve v size)

/-- vec_shrink with a fallible allocator: `VEC_REALLOC` runs only when
`capacity ≠ length`, before any header write; on failure `raise(SIGSEGV)`,
otherwise the operation proceeds as `vec_shrink`. -/
def vec_shrinkE (ok : Bool) (v : Vec α) : Except Fatal (Vec α) :=
  if v.cap ≠ v.len ∧ ok = false then Except.error Fatal.sigsegv
  else Except.ok (vec_shrink v)

/-- One mutating operation of the public API, for stating properties of whole
operation sequences. -/
inductive Op (α : Type) where
  | push (item : α)
  | insert (item : α) (index : Int)
  | remove (index : ℕ)
  | pop
  | clear
  | reserve (size : Int)
  | shrink

/-- Apply one operation to a vec. -/
def applyOp (v : Vec α) : Op α → Vec α
  | Op.push item => vec_push v item
  | Op.insert item index => vec_insert v item index
  | Op.remove index => vec_remove v index
  | Op.pop => vec_pop v
  | Op.clear => vec_clear v
  | Op.reserve size => vec_reserve v size
  | Op.shrink => vec_shrink v

/-- Apply a sequence of operations from left to right. -/
def applyOps (v : Vec α) (ops : List (Op α)) : Vec α :=
  ops.foldl applyOp v

/-!
Helper lemmas and concrete sample vectors shared by several results.
-/

/-- Conversion to `size_t` is the identity on values representable in the
type. -/
lemma toSizeT_of_nonneg (i : Int) (h0 : 0 ≤ i) (h1 : i < 2 ^ 64) :
    toSizeT i = i.toNat := by
  unfold toSizeT
  omega

/-- Conversion of a negative 64-bit-representable value to `size_t` wraps
around, landing in the upper half of the `size_t` range. -/
lemma toSizeT_of_neg (n : Int) (h0 : -(2 ^ 63) ≤ n) (h1 : n < 0) :
    toSizeT n = (n + 2 ^ 64).toNat ∧ 2 ^ 63 ≤ toSizeT n := by
  unfold toSizeT
  omega

/-- A sample vector reachable through the API: one push into a fresh vec of
item size 4 and capacity 1, so `len = cap = 1`. -/
def sampleVec1 : Vec ℕ := vec_push (vec_newlen 4 1 0 (fun _ => 0)) 5

/-- A sample vector with capacity 0 and length 0, as produced by
`vec_newlen(size, 0)`. -/
def zeroCapVec : Vec ℕ := vec_newlen 4 0 0 (fun _ => 0)

/-- A sample vector with two stored elements 5 and 6, `len = cap = 2`. -/
def sampleVec2 : Vec ℕ := vec_push sampleVec1 6

/-- C1: for every append or insert performed when `length = capacity`, the new
capacity is `capacity * 2` if the current capacity is at most
`VEC_MAX_PREALLOC`, and `capacity + 1` otherwise. -/
theorem push_insert_growth_formula (v : Vec α) (item : α) (index : Int)
    (hfull : v.len = v.cap) (h0 : 0 ≤ index) (hle : toSizeT index ≤ v.len) :
    (vec_push v item).cap =
      (if v.cap ≤ VEC_MAX_PREALLOC then v.cap * 2 else v.cap + 1) ∧
    (vec_insert v item index).cap =
      (if v.cap ≤ VEC_MAX_PREALLOC then v.cap * 2 else v.cap + 1) := by
  have hle2 : toSizeT index ≤ v.cap := hfull ▸ hle
  constructor
  · simp [vec_push, grownCap, hfull]
  · simp [vec_insert, h0, hle, hle2, hfull, grownCap]

/-- C1 witness: growing a full vector of capacity 1 by a push and by an insert
at index 0 yields capacity 2 by the doubling branch of the formula. -/
theorem push_insert_growth_formula_witness :
    (vec_push sampleVec1 7).cap =
      (if sampleVec1.cap ≤ VEC_MAX_PREALLOC then sampleVec1.cap * 2
       else sampleVec1.cap + 1) ∧
    (vec_insert sampleVec1 7 0).cap =
      (if sampleVec1.cap ≤ VEC_MAX_PREALLOC then sampleVec1.cap * 2
       else sampleVec1.cap + 1) :=
  push_insert_growth_formula sampleVec1 7 0 (by decide) (by decide) (by decide)

/-- C3 counterexample: on a concrete vector holding one element of item size
4, the byte-size query `vec_size` returns the stored-element count 1 — the
same value as `vec_len` — and not the item size 4. -/
theorem vec_size_returns_length_not_item_size :
    vec_size sampleVec1 = vec_len sampleVec1 ∧
    vec_size sampleVec1 = 1 ∧
    sampleVec1.itemSize = 4 ∧
    vec_size sampleVec1 ≠ sampleVec1.itemSize := by decide

/-- C3 amended: `vec_size` reads the length header field, identically to
`vec_len`; it does not return `item_size`. -/
theorem vec_size_equals_vec_len (v : Vec α) :
    vec_size v = vec_len v ∧ vec_size v = v.len :=
  ⟨rfl, rfl⟩

/-- C4: for `0 ≤ index ≤ length`, `vec_insert` increments the length by
exactly one, stores the item at slot `index`, keeps the slots below `index`
unchanged and shifts the elements previously at `[index, length)` one slot to
the right with their values preserved in order; for any representable index
outside that range it is a silent no-op. -/
theorem insert_semantics (v : Vec α) (item : α) (index : Int)
    (hrep : index < 2 ^ 64) :
    (0 ≤ index → index ≤ (v.len : Int) →
      (vec_insert v item index).len = v.len + 1 ∧
      (vec_insert v item index).data index.toNat = item ∧
      (∀ j, j < index.toNat → (vec_insert v item index).data j = v.data j) ∧
      (∀ j, index.toNat ≤ j → j < v.len →
        (vec_insert v item index).data (j + 1) = v.data j)) ∧
    ((index < 0 ∨ (v.len : Int) < index) → vec_insert v item index = v) := by
  constructor
  · intro h0 hle
    have hts : toSizeT index = index.toNat := toSizeT_of_nonneg index h0 hrep
    have hle2 : toSizeT index ≤ v.len := by omega
    unfold vec_insert
    rw [if_pos ⟨rfl, h0, hle2⟩]
    refine ⟨rfl, ?_, ?_, ?_⟩
    · simp only [writeSlot]
      rw [if_pos hts.symm]
    · intro j hj
      simp only [writeSlot]
      rw [if_neg (by omega), if_neg (by omega)]
    · intro j h1 h2
      simp only [writeSlot]
      rw [if_neg (by omega), if_pos (by omega)]
      simp
  · intro h
    unfold vec_insert
    rcases h with h | h
    · rw [if_neg (by omega)]
    · have hts : toSizeT index = index.toNat :=
        toSizeT_of_nonneg index (by omega) hrep
      rw [if_neg (by omega)]

/-- C4 witness: inserting 9 at index 1 of the two-element vector `[5, 6]`
gives length 3, element 9 at slot 1, slot 0 unchanged and the old slot 1
moved to slot 2; inserting at index -1 and at index 7 changes nothing. -/
theorem insert_semantics_witness :
    (vec_insert sampleVec2 9 1).len = sampleVec2.len + 1 ∧
    (vec_insert sampleVec2 9 1).data 1 = 9 ∧
    (vec_insert sampleVec2 9 1).data 0 = sampleVec2.data 0 ∧
    (vec_insert sampleVec2 9 1).data 2 = sampleVec2.data 1 ∧
    vec_insert sampleVec2 9 (-1) = sampleVec2 ∧
    vec_insert sampleVec2 9 7 = sampleVec2 := by
  have h := insert_semantics sampleVec2 9 1 (by decide)
  have hneg := insert_semantics sampleVec2 9 (-1) (by decide)
  have hbig := insert_semantics sampleVec2 9 7 (by decide)
  obtain ⟨ha, hb, hc, hd⟩ := h.1 (by decide) (by decide)
  exact ⟨ha, hb, hc 0 (by decide), hd 1 (by decide) (by decide),
    hneg.2 (Or.inl (by decide)), hbig.2 (Or.inr (by decide))⟩

/-- C5: for `index < length`, `vec_remove` decrements the length by exactly
one, leaves the slots before `index` untouched and shifts the elements
previously at `[index + 1, length)` one slot to the left; on an empty vector
or with `index ≥ length` it is a no-op. -/
theorem remove_semantics (v : Vec α) (index : ℕ) :
    (index < v.len →
      (vec_remove v index).len + 1 = v.len ∧
      (∀ j, j < index → (vec_remove v index).data j = v.data j) ∧
      (∀ j, index ≤ j → j + 1 < v.len →
        (vec_remove v index).data j = v.data (j + 1))) ∧
    (v.len = 0 ∨ v.len ≤ index → vec_remove v index = v) := by
  constructor
  · intro h
    unfold vec_remove
    rw [if_pos ⟨by omega, h⟩]
    refine ⟨by dsimp; omega, ?_, ?_⟩
    · intro j hj
      show (if index ≤ j ∧ j < v.len - 1 then v.data (j + 1) else v.data j) =
        v.data j
      rw [if_neg (by omega)]
    · intro j h1 h2
      show (if index ≤ j ∧ j < v.len - 1 then v.data (j + 1) else v.data j) =
        v.data (j + 1)
      rw [if_pos (by omega)]
  · intro h
    unfold vec_remove
    rw [if_neg (by omega)]

/-- C5 witness: removing index 0 from the two-element vector `[5, 6]` gives
length 1 with the old slot 1 moved to slot 0; removing index 5 (out of range)
and removing from the empty vector change nothing. -/
theorem remove_semantics_witness :
    (vec_remove sampleVec2 0).len + 1 = sampleVec2.len ∧
    (vec_remove sampleVec2 0).data 0 = sampleVec2.data 1 ∧
    vec_remove sampleVec2 5 = sampleVec2 := by
  have h := remove_semantics sampleVec2 0
  have h5 := remove_semantics sampleVec2 5
  exact ⟨(h.1 (by decide)).1, (h.1 (by decide)).2.2 0 (by decide) (by decide),
    h5.2 (Or.inr (by decide))⟩

/-- C6: `vec_reserve` with a requested size no larger than the capacity
changes nothing; with a larger size it sets the capacity to exactly the
request, leaving length and item size unchanged. -/
theorem reserve_exact_or_noop (v : Vec α) (n : Int) (h0 : 0 ≤ n)
    (hrep : n < 2 ^ 64) :
    (n.toNat ≤ v.cap → vec_reserve v n = v) ∧
    (v.cap < n.toNat →
      (vec_reserve v n).cap = n.toNat ∧
      (vec_reserve v n).len = v.len ∧
      (vec_reserve v n).itemSize = v.itemSize) := by
  have hts : toSizeT n = n.toNat := toSizeT_of_nonneg n h0 hrep
  constructor
  · intro h
    unfold vec_reserve
    rw [if_neg (by omega)]
  · intro h
    unfold vec_reserve
    rw [if_pos ⟨rfl, by omega⟩]
    exact ⟨hts, rfl, rfl⟩

/-- C6 witness: on a vector of capacity 1, `vec_reserve 1` changes nothing and
`vec_reserve 10` sets the capacity to exactly 10 with length and item size
unchanged. -/
theorem reserve_exact_or_noop_witness :
    vec_reserve sampleVec1 1 = sampleVec1 ∧
    (vec_reserve sampleVec1 10).cap = 10 ∧
    (vec_reserve sampleVec1 10).len = sampleVec1.len ∧
    (vec_reserve sampleVec1 10).itemSize = sampleVec1.itemSize := by
  have h1 := reserve_exact_or_noop sampleVec1 1 (by decide) (by decide)
  have h10 := reserve_exact_or_noop sampleVec1 10 (by decide) (by decide)
  exact ⟨h1.1 (by decide), h10.2 (by decide)⟩

/-- C7 counterexample: on the capacity-0, length-0 vector produced by
`vec_newlen(4, 0)`, `vec_shrink` takes the no-op branch (capacity equals
length) and the capacity after the call is 0, refuting the clause that shrink
never results in zero capacity. -/
theorem shrink_zero_capacity_stays_zero :
    zeroCapVec.cap = zeroCapVec.len ∧ (vec_shrink zeroCapVec).cap = 0 := by
  decide

/-- C7 amended: `vec_shrink` is a no-op when capacity equals length and
otherwise sets the capacity to `max(length, 1)`; consequently the capacity
after a shrink can be zero only when capacity and length were both already
zero. -/
theorem shrink_tightens_capacity (v : Vec α) :
    (v.cap = v.len → vec_shrink v = v) ∧
    (v.cap ≠ v.len → (vec_shrink v).cap = max v.len 1) ∧
    ((vec_shrink v).cap = 0 → v.cap = 0 ∧ v.len = 0) := by
  refine ⟨?_, ?_, ?_⟩
  · intro h
    unfold vec_shrink
    rw [if_neg (by omega)]
  · intro h
    unfold vec_shrink
    rw [if_pos h]
    dsimp
    split
    · omega
    · omega
  · intro h
    unfold vec_shrink at h
    by_cases hc : v.cap = v.len
    · rw [if_neg (by omega)] at h
      omega
    · rw [if_pos hc] at h
      dsimp at h
      split at h
      · omega
      · omega

/-- C7 amended witness: shrinking the tight two-element vector changes
nothing; after a pop (length 1, capacity 2) shrink sets the capacity to
`max 1 1 = 1`. -/
theorem shrink_tightens_capacity_witness :
    vec_shrink sampleVec2 = sampleVec2 ∧
    (vec_shrink (vec_pop sampleVec2)).cap = max (vec_pop sampleVec2).len 1 := by
  have h2 := shrink_tightens_capacity sampleVec2
  have hp := shrink_tightens_capacity (vec_pop sampleVec2)
  exact ⟨h2.1 (by decide), hp.2.1 (by decide)⟩

/-- C8: an insert with an invalid index, a remove with an invalid index and a
pop on an empty vector each return the vector exactly as it was — length,
capacity, item size and every stored slot unchanged — and report nothing. -/
theorem invalid_mutations_are_noops (v : Vec α) (item : α) (index : Int)
    (k : ℕ) :
    ((index < 0 ∨ ¬ toSizeT index ≤ v.len) → vec_insert v item index = v) ∧
    (v.len ≤ k → vec_remove v k = v) ∧
    (v.len = 0 → vec_pop v = v) := by
  refine ⟨?_, ?_, ?_⟩
  · intro h
    unfold vec_insert
    rw [if_neg (by omega)]
  · intro h
    unfold vec_remove
    rw [if_neg (by omega)]
  · intro h
    unfold vec_pop
    rw [if_neg (by omega)]

/-- C8 witness: on the empty zero-capacity vector, an insert at index -3, a
remove at index 5 and a pop all leave the vector exactly as it was. -/
theorem invalid_mutations_are_noops_witness :
    vec_insert zeroCapVec 7 (-3) = zeroCapVec ∧
    vec_remove zeroCapVec 5 = zeroCapVec ∧
    vec_pop zeroCapVec = zeroCapVec := by
  have h := invalid_mutations_are_noops zeroCapVec 7 (-3) 5
  exact ⟨h.1 (Or.inl (by decide)), h.2.1 (by decide), h.2.2 (by decide)⟩

/-- The inductive state invariant for vectors created with a positive
capacity: the capacity stays positive and the length never exceeds it. -/
def VecInv (v : Vec α) : Prop := 1 ≤ v.cap ∧ v.len ≤ v.cap

/-- The grown capacity strictly exceeds a positive old capacity. -/
lemma grownCap_lt (cap : ℕ) (h : 1 ≤ cap) : cap + 1 ≤ grownCap cap := by
  unfold grownCap
  split
  · omega
  · omega

/-- Every mutating operation preserves the invariant. -/
lemma vecInv_applyOp (v : Vec α) (op : Op α) (h : VecInv v) :
    VecInv (applyOp v op) := by
  obtain ⟨h1, h2⟩ := h
  cases op with
  | push item =>
    refine ⟨?_, ?_⟩
    · show 1 ≤ (if v.len = v.cap then grownCap v.cap else v.cap)
      split
      · have := grownCap_lt v.cap h1
        omega
      · omega
    · show v.len + 1 ≤ (if v.len = v.cap then grownCap v.cap else v.cap)
      split
      · have := grownCap_lt v.cap h1
        omega
      · omega
  | insert item index =>
    show VecInv (vec_insert v item index)
    unfold vec_insert
    split
    · refine ⟨?_, ?_⟩
      · show 1 ≤ (if v.len = v.cap then grownCap v.cap else v.cap)
        split
        · have := grownCap_lt v.cap h1
          omega
        · omega
      · show v.len + 1 ≤ (if v.len = v.cap then grownCap v.cap else v.cap)
        split
        · have := grownCap_lt v.cap h1
          omega
        · omega
    · exact ⟨h1, h2⟩
  | remove index =>
    show VecInv (vec_remove v index)
    unfold vec_remove
    split
    · exact ⟨h1, by dsimp; omega⟩
    · exact ⟨h1, h2⟩
  | pop =>
    show VecInv (vec_pop v)
    unfold vec_pop
    split
    · exact ⟨h1, by dsimp; omega⟩
    · exact ⟨h1, h2⟩
  | clear => exact ⟨h1, Nat.zero_le _⟩
  | reserve size =>
    show VecInv (vec_reserve v size)
    unfold vec_reserve
    split
    · refine ⟨?_, ?_⟩
      · show 1 ≤ toSizeT size
        omega
      · show v.len ≤ toSizeT size
        omega
    · exact ⟨h1, h2⟩
  | shrink =>
    show VecInv (vec_shrink v)
    unfold vec_shrink
    split
    · refine ⟨?_, ?_⟩
      · show 1 ≤ (if 0 < v.len then v.len else 1)
        split
        · omega
        · omega
      · show v.len ≤ (if 0 < v.len then v.len else 1)
        split
        · omega
        · omega
    · exact ⟨h1, h2⟩

/-- Whole operation sequences preserve the invariant. -/
lemma vecInv_applyOps (v : Vec α) (ops : List (Op α)) (h : VecInv v) :
    VecInv (applyOps v ops) := by
  induction ops generalizing v with
  | nil => exact h
  | cons op rest ih => exact ih (applyOp v op) (vecInv_applyOp v op h)

/-- A push always increments the length by one. -/
lemma len_vec_push (v : Vec α) (item : α) :
    (vec_push v item).len = v.len + 1 := rfl

/-- N consecutive pushes add N to the length. -/
lemma len_applyOps_replicate_push (N : ℕ) (v : Vec α) (item : α) :
    (applyOps v (List.replicate N (Op.push item))).len = v.len + N := by
  induction N generalizing v with
  | zero => rfl
  | succ n ih =>
    rw [List.replicate_succ]
    show (applyOps (vec_push v item) (List.replicate n (Op.push item))).len = _
    rw [ih (vec_push v item), len_vec_push]
    omega

/-- C2 counterexample: one append to a vector freshly created with capacity 0
leaves the capacity at 0 (doubling the zero capacity yields zero) while the
length becomes 1, so `length ≤ capacity` fails after that operation. -/
theorem push_on_zero_capacity_breaks_invariant :
    (vec_push zeroCapVec 7).len = 1 ∧ (vec_push zeroCapVec 7).cap = 0 ∧
    ¬ (vec_push zeroCapVec 7).len ≤ (vec_push zeroCapVec 7).cap := by
  decide

/-- C2 amended: for every vector created with a positive initial capacity,
`length ≤ capacity` holds after every sequence of mutating operations, and
after N appends to a freshly created vector the length is exactly N (so
`capacity ≥ length = N` as well). -/
theorem invariant_from_positive_capacity (size nitems : ℕ) (zero : α)
    (mem : ℕ → α) (ops : List (Op α)) (N : ℕ) (item : α)
    (hpos : 1 ≤ nitems) :
    (applyOps (vec_newlen size nitems zero mem) ops).len ≤
      (applyOps (vec_newlen size nitems zero mem) ops).cap ∧
    (applyOps (vec_newlen size nitems zero mem)
      (List.replicate N (Op.push item))).len = N := by
  constructor
  · exact (vecInv_applyOps (vec_newlen size nitems zero mem) ops
      ⟨hpos, Nat.zero_le _⟩).2
  · rw [len_applyOps_replicate_push]
    show 0 + N = N
    omega

/-- C2 amended witness: starting from item size 4 and capacity 1, after the
sequence push, push, pop, reserve 5 the length is at most the capacity, and
after 3 pushes the length is exactly 3. -/
theorem invariant_from_positive_capacity_witness :
    (applyOps (vec_newlen 4 1 (0 : ℕ) (fun _ => 0))
      [Op.push 5, Op.push 6, Op.pop, Op.reserve 5]).len ≤
    (applyOps (vec_newlen 4 1 (0 : ℕ) (fun _ => 0))
      [Op.push 5, Op.push 6, Op.pop, Op.reserve 5]).cap ∧
    (applyOps (vec_newlen 4 1 (0 : ℕ) (fun _ => 0))
      (List.replicate 3 (Op.push 7))).len = 3 :=
  invariant_from_positive_capacity 4 1 0 (fun _ => 0)
    [Op.push 5, Op.push 6, Op.pop, Op.reserve 5] 3 7 (by decide)

/-- C9: each memory-requesting operation terminates the process (the
`Except.error Fatal.sigsegv` outcome, which carries no vector state) exactly
when its allocation primitive fails on a call that actually requests memory:
always for construction and duplication, on a full vector for push and valid
insert, on a growing request for reserve, and on a non-tight vector for
shrink; in every other case the operation returns the ordinary result. -/
theorem allocation_failure_is_fatal (ok : Bool) (v : Vec α) (item : α)
    (index size : Int) (isz nitems : ℕ) (zero : α) (mem : ℕ → α) :
    (vec_newlenE ok isz nitems zero mem = Except.error Fatal.sigsegv ↔
      ok = false) ∧
    (vec_dupE ok v mem = Except.error Fatal.sigsegv ↔ ok = false) ∧
    (vec_pushE ok v item = Except.error Fatal.sigsegv ↔
      v.len = v.cap ∧ ok = false) ∧
    (vec_insertE ok v item index = Except.error Fatal.sigsegv ↔
      (0 ≤ index ∧ toSizeT index ≤ v.len) ∧ v.len = v.cap ∧ ok = false) ∧
    (vec_reserveE ok v size = Except.error Fatal.sigsegv ↔
      v.cap < toSizeT size ∧ ok = false) ∧
    (vec_shrinkE ok v = Except.error Fatal.sigsegv ↔ v.cap ≠ v.len ∧
      ok = false) := by
  refine ⟨?_, ?_, ?_, ?_, ?_, ?_⟩
  · unfold vec_newlenE
    split
    · next h => exact iff_of_true rfl h
    · next h => exact iff_of_false (by simp) h
  · unfold vec_dupE
    split
    · next h => exact iff_of_true rfl h
    · next h => exact iff_of_false (by simp) h
  · unfold vec_pushE
    split
    · next h => exact iff_of_true rfl h
    · next h => exact iff_of_false (by simp) h
  · unfold vec_insertE
    split
    · next h => exact iff_of_true rfl h
    · next h => exact iff_of_false (by simp) h
  · unfold vec_reserveE
    split
    · next h => exact iff_of_true rfl h
    · next h => exact iff_of_false (by simp) h
  · unfold vec_shrinkE
    split
    · next h => exact iff_of_true rfl h
    · next h => exact iff_of_false (by simp) h

/-- C10 counterexample: `vec_reserve` with size -1 on a capacity-1 vector is
not a no-op — the conversion check compares the converted value with itself,
so the guard passes and the capacity header is set to the converted value
2^64 - 1. -/
theorem reserve_negative_size_changes_vector :
    (vec_reserve sampleVec1 (-1)).cap = 2 ^ 64 - 1 ∧
    sampleVec1.cap = 1 ∧
    vec_reserve sampleVec1 (-1) ≠ sampleVec1 := by
  have h1 : (vec_reserve sampleVec1 (-1)).cap = 2 ^ 64 - 1 := by decide
  have h2 : sampleVec1.cap = 1 := by decide
  refine ⟨h1, h2, fun h => ?_⟩
  rw [h, h2] at h1
  omega

/-- C10 amended: `vec_insert` with a negative index is a silent no-op, because
of its separate signed comparison `index >= 0`; but `vec_reserve` with a
negative size is not protected — the `(size_t) size == size` comparison
converts both sides to `size_t` and always passes for integer arguments, so a
negative size wraps to the huge value `size + 2^64`, exceeds any capacity
below 2^63, and becomes the new capacity. -/
theorem negative_argument_semantics (v : Vec α) (item : α) (i n : Int)
    (hi : i < 0) (hn0 : -(2 ^ 63) ≤ n) (hn1 : n < 0)
    (hcap : v.cap < 2 ^ 63) :
    vec_insert v item i = v ∧
    (vec_reserve v n).cap = (n + 2 ^ 64).toNat := by
  obtain ⟨hts, hge⟩ := toSizeT_of_neg n hn0 hn1
  constructor
  · unfold vec_insert
    rw [if_neg (by omega)]
  · unfold vec_reserve
    rw [if_pos ⟨rfl, by omega⟩]
    exact hts

/-- C10 amended witness: on the capacity-1 vector, an insert at index -1
changes nothing while a reserve of -2 sets the capacity to 2^64 - 2. -/
theorem negative_argument_semantics_witness :
    vec_insert sampleVec1 7 (-1) = sampleVec1 ∧
    (vec_reserve sampleVec1 (-2)).cap = ((-2 : Int) + 2 ^ 64).toNat :=
  negative_argument_semantics sampleVec1 7 (-1) (-2) (by decide) (by decide)
    (by decide) (by decide)

end VecLib
